import Mathlib

/-!
Verification of the AI shelf-scanner scan pipeline.

Shallow embedding of the scan routes and services:
the relational store (`scan_sessions`, `detected_books`, `recommendations`,
`user_feedback` from `src/database/schema.sql`) is a record of row lists,
HTTP handlers become state-transforming functions, and the external Gemini
vision/recommendation calls become explicit outcome parameters.  Confidence
and recommendation scores are modelled as rationals; the schema CHECK
constraints and NOT NULL / foreign-key constraints are enforced by the
insert functions, which return `Except` like a throwing query call.

Projections: columns never inspected by the handlers under verification
(timestamps, tokens, metadata blobs, user ids, image positions) are omitted
from the row types.
-/

/-- Session lifecycle states stored in `scan_sessions.status`. -/
inductive Status
  | processing
  | completed_detection
  | completed
  | failed
deriving DecidableEq

/-- One candidate from the vision model's parsed JSON: fields may be absent. -/
structure VisionBook where
  title : Option String
  author : Option String
  confidence : ℚ
deriving DecidableEq

/-- Parsed vision response; the `books` key may be absent (`!geminiResult.books`). -/
structure VisionResult where
  books : Option (List VisionBook)
deriving DecidableEq

/-- Outcome of `detectBooksFromImage` as observed by the caller: a parsed
result, or a thrown error carrying its message. -/
inductive VisionOutcome
  | ok (r : VisionResult)
  | err (msg : String)
deriving DecidableEq

/-- One raw item of the recommendation model's parsed JSON array. -/
structure RawRec where
  title : Option String
  author : Option String
  score : Option ℚ
  reasoning : Option String
deriving DecidableEq

/-- Outcome of the external recommendation call: a parsed `recommendations`
array, or any failure (network error, no JSON, invalid structure). -/
inductive GenOutcome
  | ok (recs : List RawRec)
  | fail
deriving DecidableEq

/-- A recommendation item as returned by the generator to the orchestrator. -/
structure RecItem where
  title : String
  author : String
  score : ℚ
  reasoning : String
deriving DecidableEq

/-- (title, author) pair passed to the recommendation generator. -/
structure BookRef where
  title : String
  author : Option String
deriving DecidableEq

/-- JavaScript `s || default` on an optional string: both `undefined` and the
empty string are falsy. -/
def jsOr (s : Option String) (d : String) : String :=
  match s with
  | none => d
  | some t => if t = "" then d else t

/-- JavaScript `s || null` on an optional string. -/
def jsOrNull (s : Option String) : Option String :=
  match s with
  | none => none
  | some t => if t = "" then none else some t

namespace GeminiService

/-- Field defaulting and score clamping applied to each raw item by
`generateRecommendationsBatch` in the part_005 service:
`Math.max(0, Math.min(1, typeof r.score === 'number' ? r.score : 0.5))`. -/
def toRecItem (r : RawRec) : RecItem :=
  { title := jsOr r.title "Unknown Title"
    author := jsOr r.author "Unknown Author"
    score := max 0 (min 1 (r.score.getD (mkRat 1 2)))
    reasoning := jsOr r.reasoning "No specific reasoning provided" }

/-- part_005 `GeminiService.generateRecommendationsBatch`: on a parsed array,
maps each raw item through defaulting/clamping; on any failure, the catch
block returns one placeholder recommendation per input book. -/
def generateRecommendationsBatch (books : List BookRef) (g : GenOutcome) :
    List RecItem :=
  match g with
  | .ok raws => raws.map toRecItem
  | .fail => books.map (fun _ =>
      { title := "Unknown Title"
        author := "Unknown Author"
        score := mkRat 1 2
        reasoning := "Unable to generate recommendation" })

end GeminiService

namespace ServerGemini

/-- `server/src/services/gemini.service.ts` `generateRecommendationsBatch`:
returns `JSON.parse(...).recommendations` unvalidated on success and the
empty list from its catch block on failure. -/
def generateRecommendationsBatch (g : GenOutcome) : List RawRec :=
  match g with
  | .ok raws => raws
  | .fail => []

end ServerGemini

/-- A `scan_sessions` row (projected to the columns the handlers read). -/
structure SessionRow where
  id : Nat
  status : Status
  error_message : Option String
deriving DecidableEq

/-- A `detected_books` row. `title` is NOT NULL in the schema; `id` is the
generated primary key the insert returns (`RETURNING id`). -/
structure BookRow where
  id : Nat
  session : Nat
  title : String
  author : Option String
  confidence : ℚ
deriving DecidableEq

/-- A `recommendations` row. -/
structure RecRow where
  session : Nat
  title : String
  author : String
  score : ℚ
  reasoning : String
  rank : Nat
deriving DecidableEq

/-- A `user_feedback` row (projected to the columns whose constraints the
feedback handler can violate). `detected_book_id` carries a foreign key to
`detected_books(id)`. -/
structure FeedbackRow where
  session : Nat
  detected_book_id : Option Nat
  feedback_type : String
deriving DecidableEq

/-- The relational store. `nextId` models the generated session primary key
and `nextBookId` the generated detected-book primary key. -/
structure DB where
  sessions : List SessionRow
  books : List BookRow
  recs : List RecRow
  feedback : List FeedbackRow
  nextId : Nat
  nextBookId : Nat
deriving DecidableEq

def emptyDB : DB := ⟨[], [], [], [], 0, 0⟩

/-- `SELECT * FROM scan_sessions WHERE id = $1` (first row). -/
def findSession (db : DB) (sid : Nat) : Option SessionRow :=
  db.sessions.find? (fun r => r.id == sid)

def sessionExists (db : DB) (sid : Nat) : Bool :=
  db.sessions.any (fun r => r.id == sid)

def bookExists (db : DB) (bid : Nat) : Bool :=
  db.books.any (fun b => b.id == bid)

def statusOf (db : DB) (sid : Nat) : Option Status :=
  (findSession db sid).map (·.status)

def errorMsgOf (db : DB) (sid : Nat) : Option String :=
  (findSession db sid).bind (·.error_message)

/-- `SELECT * FROM detected_books WHERE scan_session_id = $1` (insertion order). -/
def booksOf (db : DB) (sid : Nat) : List BookRow :=
  db.books.filter (fun b => b.session == sid)

/-- `SELECT * FROM recommendations WHERE scan_session_id = $1` (insertion order). -/
def recsOf (db : DB) (sid : Nat) : List RecRow :=
  db.recs.filter (fun r => r.session == sid)

def ranksOf (db : DB) (sid : Nat) : List Nat :=
  (recsOf db sid).map (·.rank)

/-- `UPDATE scan_sessions SET ... WHERE id = $1`. -/
def updateSession (db : DB) (sid : Nat) (f : SessionRow → SessionRow) : DB :=
  { db with sessions := db.sessions.map (fun r => if r.id = sid then f r else r) }

def setStatus (db : DB) (sid : Nat) (st : Status) : DB :=
  updateSession db sid (fun r => { r with status := st })

/-- `UPDATE scan_sessions SET status = 'failed', error_message = $1 WHERE id = $2`. -/
def setFailed (db : DB) (sid : Nat) (msg : String) : DB :=
  updateSession db sid (fun r => { r with status := .failed, error_message := some msg })

/-- Row built by the detected-books INSERT: generated id, `book.author ||
null`, confidence passed through unmodified. -/
def mkBookRow (bid sid : Nat) (b : VisionBook) : BookRow :=
  ⟨bid, sid, b.title.getD "", jsOrNull b.author, b.confidence⟩

/-- `INSERT INTO detected_books ...` with the schema's constraints:
`title NOT NULL`, the foreign key on `scan_session_id`, and
`CHECK (confidence_score >= 0 AND confidence_score <= 1)`. -/
def insertDetectedBook (db : DB) (sid : Nat) (b : VisionBook) : Except String DB :=
  match b.title with
  | none => .error "null value in column title violates not-null constraint"
  | some _ =>
    if sessionExists db sid then
      if 0 ≤ b.confidence ∧ b.confidence ≤ 1 then
        .ok { db with
          books := db.books ++ [mkBookRow db.nextBookId sid b]
          nextBookId := db.nextBookId + 1 }
      else .error "new row violates check constraint on confidence_score"
    else .error "insert violates foreign key constraint on scan_session_id"

/-- The sequential detected-books insert loop; the first failing insert throws,
leaving the earlier rows committed (there is no surrounding transaction). -/
def insertBooksLoop (db : DB) (sid : Nat) : List VisionBook → Except (DB × String) DB
  | [] => .ok db
  | b :: rest =>
    match insertDetectedBook db sid b with
    | .error msg => .error (db, msg)
    | .ok db' => insertBooksLoop db' sid rest

/-- The rows appended by a successful `insertBooksLoop` run when the first
generated id is `k`. -/
def bookRows (sid : Nat) (k : Nat) : List VisionBook → List BookRow
  | [] => []
  | b :: rest => mkBookRow k sid b :: bookRows sid (k + 1) rest

/-- Row built by the recommendations INSERT for item `i` with `rank = i + 1`. -/
def mkRecRow (sid : Nat) (r : RecItem) (rank : Nat) : RecRow :=
  ⟨sid, r.title, r.author, r.score, r.reasoning, rank⟩

/-- `INSERT INTO recommendations ...` with the foreign key on
`scan_session_id` and `CHECK (recommendation_score >= 0 AND <= 1)`. -/
def insertRecommendation (db : DB) (sid : Nat) (r : RecItem) (rank : Nat) :
    Except String DB :=
  if sessionExists db sid then
    if 0 ≤ r.score ∧ r.score ≤ 1 then
      .ok { db with recs := db.recs ++ [mkRecRow sid r rank] }
    else .error "new row violates check constraint on recommendation_score"
  else .error "insert violates foreign key constraint on scan_session_id"

/-- The sequential recommendations insert loop, rank `i + 1` for index `i`
(so called with `k = 1`). -/
def insertRecsLoop (db : DB) (sid : Nat) (k : Nat) :
    List RecItem → Except (DB × String) DB
  | [] => .ok db
  | r :: rest =>
    match insertRecommendation db sid r k with
    | .error msg => .error (db, msg)
    | .ok db' => insertRecsLoop db' sid (k + 1) rest

/-- The rows appended by a successful `insertRecsLoop` run starting at rank `k`. -/
def recRows (sid : Nat) (k : Nat) : List RecItem → List RecRow
  | [] => []
  | r :: rest => mkRecRow sid r k :: recRows sid (k + 1) rest

def visionToRef (b : VisionBook) : BookRef :=
  ⟨b.title.getD "", b.author⟩

/-- `processImage` from the synchronous scan route (part_004, lines 704-824):
detection, the detected-books insert loop, the batch recommendation call
(which never throws), the recommendations insert loop guarded by
`recommendations.length > 0`, and the final status write; any thrown error
reaches the catch block which marks the session failed with the message. -/
def processImage (db : DB) (sid : Nat) (v : VisionOutcome) (g : GenOutcome) : DB :=
  match v with
  | .err msg => setFailed db sid msg
  | .ok r =>
    match r.books with
    | none => setFailed db sid "No books detected in image"
    | some [] => setFailed db sid "No books detected in image"
    | some bs =>
      match insertBooksLoop db sid bs with
      | .error (db1, msg) => setFailed db1 sid msg
      | .ok db1 =>
        let recs := GeminiService.generateRecommendationsBatch
          ((bs.take 5).map visionToRef) g
        if recs.isEmpty then setStatus db1 sid .completed
        else
          match insertRecsLoop db1 sid 1 recs with
          | .error (db2, msg) => setFailed db2 sid msg
          | .ok db2 => setStatus db2 sid .completed

/-- The synchronous `POST /api/scan` handler: creates the session in
`processing` and runs `processImage` to completion before responding.
Returns the new state and the created session id. -/
def scanPost (db : DB) (v : VisionOutcome) (g : GenOutcome) : DB × Nat :=
  let sid := db.nextId
  let db1 : DB :=
    { db with
      sessions := db.sessions ++ [⟨sid, .processing, none⟩]
      nextId := db.nextId + 1 }
  (processImage db1 sid v g, sid)

/-- Response shape of the sync/async `GET /api/scan/:sessionId` handler:
the `processing` branch carries no book or recommendation data, the
`failed` branch carries only the stored error message, and every other
status falls through to the branch that answers `status: 'completed'`. -/
inductive GetScanResponse
  | notFound
  | stillProcessing
  | failedResp (error : Option String)
  | completed (detectedBooks : List BookRow) (recommendations : List RecRow)
deriving DecidableEq

/-- `ORDER BY confidence_score DESC`. -/
def byConfDesc (a b : BookRow) : Prop := b.confidence ≤ a.confidence

instance : DecidableRel byConfDesc :=
  fun a b => decidable_of_iff (b.confidence ≤ a.confidence) Iff.rfl

instance : IsTotal BookRow byConfDesc :=
  ⟨fun a b => le_total b.confidence a.confidence⟩

instance : IsTrans BookRow byConfDesc :=
  ⟨fun _ _ _ hab hbc => le_trans hbc hab⟩

/-- `ORDER BY rank ASC`. -/
def byRankAsc (a b : RecRow) : Prop := a.rank ≤ b.rank

instance : DecidableRel byRankAsc :=
  fun a b => decidable_of_iff (a.rank ≤ b.rank) Iff.rfl

instance : IsTotal RecRow byRankAsc :=
  ⟨fun a b => le_total a.rank b.rank⟩

instance : IsTrans RecRow byRankAsc :=
  ⟨fun _ _ _ hab hbc => le_trans hab hbc⟩

/-- The sync/async `GET /api/scan/:sessionId` handler (part_004 lines
340-403 and 613-678, identical logic): 404 on unknown id, status-only for
`processing`, status plus stored error message for `failed`, and otherwise
`completed` with books ordered by descending confidence and
recommendations ordered by ascending rank. -/
def getScanResults (db : DB) (sid : Nat) : GetScanResponse :=
  match findSession db sid with
  | none => .notFound
  | some s =>
    match s.status with
    | .processing => .stillProcessing
    | .failed => .failedResp s.error_message
    | _ => .completed
        (List.insertionSort byConfDesc (booksOf db sid))
        (List.insertionSort byRankAsc (recsOf db sid))

/-- The `user_feedback.detected_book_id` foreign key: satisfied when the
request carries no detectedBookId (inserted as null via `|| null`; a UUID
string is never falsy) or references an existing detected-books row. -/
def feedbackFkOk (db : DB) (detectedBookId : Option Nat) : Bool :=
  match detectedBookId with
  | none => true
  | some bid => bookExists db bid

/-- `POST /api/scan/:sessionId/feedback`: inserts the row with no
validation; the insert's foreign keys — the session id from the path and
the client-supplied `detectedBookId || null` — are checked by the store,
and a violation of either reaches the catch block as HTTP 500. Returns the
new state and the HTTP status code. -/
def submitFeedback (db : DB) (sid : Nat) (detectedBookId : Option Nat)
    (ftype : String) : DB × Nat :=
  if sessionExists db sid && feedbackFkOk db detectedBookId then
    ({ db with feedback := db.feedback ++ [⟨sid, detectedBookId, ftype⟩] }, 200)
  else (db, 500)

/-- The phased `POST /api/scan` handler (part_004 lines 847-898): creates
the session, runs detection, fails the session on an empty result or a
thrown error ('No books detected' here), inserts the detected books, and
marks the session `completed_detection`. -/
def phasedPost (db : DB) (v : VisionOutcome) : DB :=
  let sid := db.nextId
  let db1 : DB :=
    { db with
      sessions := db.sessions ++ [⟨sid, .processing, none⟩]
      nextId := db.nextId + 1 }
  match v with
  | .err msg => setFailed db1 sid msg
  | .ok r =>
    match r.books with
    | none => setFailed db1 sid "No books detected"
    | some [] => setFailed db1 sid "No books detected"
    | some bs =>
      match insertBooksLoop db1 sid bs with
      | .error (db2, msg) => setFailed db2 sid msg
      | .ok db2 => setStatus db2 sid .completed_detection

/-- The phased `GET /api/scan/:sessionId/recommendations` handler (part_004
lines 901-940): 404 when the session has no detected books; otherwise it
calls the generator on the first five detected rows, inserts the returned
items with ranks `i + 1`, and unconditionally sets the session status to
`completed` — without ever reading the session's current status or its
existing recommendation rows. -/
def phasedRecommendations (db : DB) (sid : Nat) (g : GenOutcome) : DB :=
  let rows := booksOf db sid
  if rows.isEmpty then db
  else
    let recs := GeminiService.generateRecommendationsBatch
      ((rows.take 5).map (fun b => ⟨b.title, b.author⟩)) g
    match insertRecsLoop db sid 1 recs with
    | .error (db1, _) => db1
    | .ok db1 => setStatus db1 sid .completed

/-- Response of the phased variant's full session getter (part_004 lines
943-952): it returns the stored status together with the session's book
and recommendation rows for every status. Its JSON carries no error key;
the `error` field records that absence and is always `none`. -/
structure PhasedSessionView where
  status : Status
  error : Option String
  detectedBooks : List BookRow
  recommendations : List RecRow
deriving DecidableEq

/-- The phased variant's `GET /api/scan/:sessionId` handler. -/
def phasedGetSession (db : DB) (sid : Nat) : Option PhasedSessionView :=
  (findSession db sid).map (fun s =>
    ⟨s.status, none, booksOf db sid, recsOf db sid⟩)

/-- One client-visible operation of the phased deployment, with the outcome
of any external call it performs as an explicit parameter. -/
inductive PhasedOp
  | startScan (v : VisionOutcome)
  | recommendPhase (sid : Nat) (g : GenOutcome)
  | getStatus (sid : Nat)
  | feedback (sid : Nat) (detectedBookId : Option Nat) (ftype : String)

def applyPhasedOp (db : DB) : PhasedOp → DB
  | .startScan v => phasedPost db v
  | .recommendPhase sid g => phasedRecommendations db sid g
  | .getStatus _ => db
  | .feedback sid dbid t => (submitFeedback db sid dbid t).1

/-- The state after a sequence of phased operations starting from the empty
store. -/
def runPhased (ops : List PhasedOp) : DB :=
  ops.foldl applyPhasedOp emptyDB


/-! ### Store lemmas -/

theorem find?_update_self (l : List SessionRow) (sid : Nat) (f : SessionRow → SessionRow)
    (hf : ∀ r, (f r).id = r.id) :
    (l.map (fun r => if r.id = sid then f r else r)).find? (fun r => r.id == sid)
      = (l.find? (fun r => r.id == sid)).map f := by
  induction l with
  | nil => rfl
  | cons a l ih =>
    by_cases h : a.id = sid
    · simp [h, hf]
    · simp only [List.map_cons, if_neg h]
      rw [List.find?_cons_of_neg, List.find?_cons_of_neg, ih]
      · simpa using h
      · simpa using h

theorem find?_update_other (l : List SessionRow) (sid sid' : Nat)
    (f : SessionRow → SessionRow) (hf : ∀ r, (f r).id = r.id) (hne : sid' ≠ sid) :
    (l.map (fun r => if r.id = sid then f r else r)).find? (fun r => r.id == sid')
      = l.find? (fun r => r.id == sid') := by
  induction l with
  | nil => rfl
  | cons a l ih =>
    by_cases h : a.id = sid
    · have hna : ¬ a.id = sid' := by rw [h]; exact fun hc => hne hc.symm
      simp only [List.map_cons, if_pos h]
      rw [List.find?_cons_of_neg, List.find?_cons_of_neg, ih]
      · simpa using hna
      · simpa [hf, h] using fun hc => hne hc.symm
    · by_cases h' : a.id = sid'
      · simp only [List.map_cons, if_neg h]
        rw [List.find?_cons_of_pos, List.find?_cons_of_pos] <;> simpa using h'
      · simp only [List.map_cons, if_neg h]
        rw [List.find?_cons_of_neg, List.find?_cons_of_neg, ih]
        · simpa using h'
        · simpa using h'

theorem findSession_updateSession_self (db : DB) (sid : Nat) (f : SessionRow → SessionRow)
    (hf : ∀ r, (f r).id = r.id) :
    findSession (updateSession db sid f) sid = (findSession db sid).map f :=
  find?_update_self db.sessions sid f hf

theorem findSession_updateSession_other (db : DB) (sid sid' : Nat)
    (f : SessionRow → SessionRow) (hf : ∀ r, (f r).id = r.id) (hne : sid' ≠ sid) :
    findSession (updateSession db sid f) sid' = findSession db sid' :=
  find?_update_other db.sessions sid sid' f hf hne

theorem findSession_some_of_exists (db : DB) (sid : Nat) (h : sessionExists db sid = true) :
    ∃ row, findSession db sid = some row := by
  unfold sessionExists at h
  rw [List.any_eq_true] at h
  obtain ⟨r, hr, hpr⟩ := h
  unfold findSession
  rcases hfind : db.sessions.find? (fun r => r.id == sid) with _ | row
  · exact absurd hpr (List.find?_eq_none.mp hfind r hr)
  · exact ⟨row, hfind⟩

theorem statusOf_setStatus_eq_some (db : DB) (sid : Nat) (st : Status) (s' : Status)
    (h : statusOf (setStatus db sid st) sid = some s') : s' = st := by
  unfold statusOf setStatus at h
  rw [findSession_updateSession_self db sid
    (fun r => { r with status := st }) (fun _ => rfl)] at h
  rcases hfind : findSession db sid with _ | row <;> rw [hfind] at h <;> simp at h
  exact h.symm

theorem statusOf_setFailed_eq_some (db : DB) (sid : Nat) (m : String) (s' : Status)
    (h : statusOf (setFailed db sid m) sid = some s') : s' = .failed := by
  unfold statusOf setFailed at h
  rw [findSession_updateSession_self db sid
    (fun r => { r with status := .failed, error_message := some m }) (fun _ => rfl)] at h
  rcases hfind : findSession db sid with _ | row <;> rw [hfind] at h <;> simp at h
  exact h.symm

theorem statusOf_setStatus_other (db : DB) (sid sid' : Nat) (st : Status) (hne : sid' ≠ sid) :
    statusOf (setStatus db sid st) sid' = statusOf db sid' := by
  unfold statusOf setStatus
  rw [findSession_updateSession_other db sid sid'
    (fun r => { r with status := st }) (fun _ => rfl) hne]

theorem statusOf_setFailed_other (db : DB) (sid sid' : Nat) (m : String) (hne : sid' ≠ sid) :
    statusOf (setFailed db sid m) sid' = statusOf db sid' := by
  unfold statusOf setFailed
  rw [findSession_updateSession_other db sid sid'
    (fun r => { r with status := .failed, error_message := some m }) (fun _ => rfl) hne]

theorem statusOf_setStatus_self (db : DB) (sid : Nat) (st : Status)
    (h : sessionExists db sid = true) : statusOf (setStatus db sid st) sid = some st := by
  obtain ⟨row, hrow⟩ := findSession_some_of_exists db sid h
  unfold statusOf setStatus
  rw [findSession_updateSession_self db sid
    (fun r => { r with status := st }) (fun _ => rfl), hrow]
  rfl

theorem statusOf_setFailed_self (db : DB) (sid : Nat) (m : String)
    (h : sessionExists db sid = true) : statusOf (setFailed db sid m) sid = some .failed := by
  obtain ⟨row, hrow⟩ := findSession_some_of_exists db sid h
  unfold statusOf setFailed
  rw [findSession_updateSession_self db sid
    (fun r => { r with status := .failed, error_message := some m }) (fun _ => rfl), hrow]
  rfl

theorem errorMsgOf_setFailed_self (db : DB) (sid : Nat) (m : String)
    (h : sessionExists db sid = true) : errorMsgOf (setFailed db sid m) sid = some m := by
  obtain ⟨row, hrow⟩ := findSession_some_of_exists db sid h
  unfold errorMsgOf setFailed
  rw [findSession_updateSession_self db sid
    (fun r => { r with status := .failed, error_message := some m }) (fun _ => rfl), hrow]
  rfl

theorem booksOf_updateSession (db : DB) (sid : Nat) (f : SessionRow → SessionRow)
    (sid' : Nat) : booksOf (updateSession db sid f) sid' = booksOf db sid' := rfl

theorem recsOf_updateSession (db : DB) (sid : Nat) (f : SessionRow → SessionRow)
    (sid' : Nat) : recsOf (updateSession db sid f) sid' = recsOf db sid' := rfl

theorem sessionExists_of_statusOf (db : DB) (sid : Nat) (s : Status)
    (h : statusOf db sid = some s) : sessionExists db sid = true := by
  unfold statusOf findSession at h
  rcases hfind : db.sessions.find? (fun r => r.id == sid) with _ | row <;> rw [hfind] at h
  · simp at h
  · unfold sessionExists
    rw [List.any_eq_true]
    have h2 := @List.find?_some SessionRow (fun r => r.id == sid) row db.sessions hfind
    exact ⟨row, List.mem_of_find?_eq_some hfind, h2⟩

theorem sessionExists_updateSession (db : DB) (sid : Nat) (f : SessionRow → SessionRow)
    (hf : ∀ r, (f r).id = r.id) (sid' : Nat) :
    sessionExists (updateSession db sid f) sid' = sessionExists db sid' := by
  unfold sessionExists updateSession
  rw [List.any_map]
  congr 1
  funext r
  by_cases h : r.id = sid <;> simp [h, hf]

/-! ### Insert-loop lemmas -/

theorem insertDetectedBook_ok (db : DB) (sid : Nat) (b : VisionBook) (db1 : DB)
    (h : insertDetectedBook db sid b = .ok db1) :
    db1 = { db with
      books := db.books ++ [mkBookRow db.nextBookId sid b]
      nextBookId := db.nextBookId + 1 } := by
  unfold insertDetectedBook at h
  split at h
  · cases h
  · split at h
    · split at h
      · cases h; rfl
      · cases h
    · cases h

theorem insertDetectedBook_ok_of_valid (db : DB) (sid : Nat) (b : VisionBook)
    (hs : sessionExists db sid = true) (ht : b.title ≠ none)
    (hc : 0 ≤ b.confidence ∧ b.confidence ≤ 1) :
    insertDetectedBook db sid b
      = .ok { db with
          books := db.books ++ [mkBookRow db.nextBookId sid b]
          nextBookId := db.nextBookId + 1 } := by
  unfold insertDetectedBook
  rcases htt : b.title with _ | t
  · exact absurd htt ht
  · simp only [htt]
    rw [if_pos hs, if_pos hc]

theorem insertBooksLoop_ok_shape (sid : Nat) :
    ∀ (bs : List VisionBook) (db db' : DB), insertBooksLoop db sid bs = .ok db' →
      db'.sessions = db.sessions ∧ db'.nextId = db.nextId ∧
      db'.recs = db.recs ∧ db'.feedback = db.feedback := by
  intro bs
  induction bs with
  | nil =>
    intro db db' h
    unfold insertBooksLoop at h
    cases h
    exact ⟨rfl, rfl, rfl, rfl⟩
  | cons b rest ih =>
    intro db db' h
    unfold insertBooksLoop at h
    rcases hins : insertDetectedBook db sid b with m | db1 <;> rw [hins] at h
    · cases h
    · have hsh := insertDetectedBook_ok db sid b db1 hins
      have := ih db1 db' h
      rw [hsh] at this
      exact this

theorem insertBooksLoop_err_shape (sid : Nat) :
    ∀ (bs : List VisionBook) (db db1 : DB) (m : String),
      insertBooksLoop db sid bs = .error (db1, m) →
      db1.sessions = db.sessions ∧ db1.nextId = db.nextId ∧
      db1.recs = db.recs ∧ db1.feedback = db.feedback := by
  intro bs
  induction bs with
  | nil =>
    intro db db1 m h
    unfold insertBooksLoop at h
    cases h
  | cons b rest ih =>
    intro db db1 m h
    unfold insertBooksLoop at h
    rcases hins : insertDetectedBook db sid b with m' | dbx <;> rw [hins] at h
    · cases h
      exact ⟨rfl, rfl, rfl, rfl⟩
    · have hsh := insertDetectedBook_ok db sid b dbx hins
      have := ih dbx db1 m h
      rw [hsh] at this
      exact this

theorem insertBooksLoop_ok_of_valid (sid : Nat) :
    ∀ (bs : List VisionBook) (db : DB), sessionExists db sid = true →
      (∀ b ∈ bs, b.title ≠ none ∧ 0 ≤ b.confidence ∧ b.confidence ≤ 1) →
      insertBooksLoop db sid bs
        = .ok { db with
            books := db.books ++ bookRows sid db.nextBookId bs
            nextBookId := db.nextBookId + bs.length } := by
  intro bs
  induction bs with
  | nil =>
    intro db hs _
    unfold insertBooksLoop
    simp [bookRows]
  | cons b rest ih =>
    intro db hs hv
    have hb := hv b (List.mem_cons_self b rest)
    unfold insertBooksLoop
    rw [insertDetectedBook_ok_of_valid db sid b hs hb.1 hb.2]
    have hs1 : sessionExists { db with
        books := db.books ++ [mkBookRow db.nextBookId sid b]
        nextBookId := db.nextBookId + 1 } sid = true := hs
    show insertBooksLoop { db with
        books := db.books ++ [mkBookRow db.nextBookId sid b]
        nextBookId := db.nextBookId + 1 } sid rest = _
    rw [ih _ hs1 (fun x hx => hv x (List.mem_cons_of_mem b hx))]
    simp [bookRows, List.append_assoc, Nat.add_assoc, Nat.add_comm, Nat.add_left_comm]

theorem insertRecommendation_ok (db : DB) (sid : Nat) (r : RecItem) (k : Nat) (db1 : DB)
    (h : insertRecommendation db sid r k = .ok db1) :
    db1 = { db with recs := db.recs ++ [mkRecRow sid r k] } := by
  unfold insertRecommendation at h
  split at h
  · split at h
    · cases h; rfl
    · cases h
  · cases h

theorem insertRecommendation_ok_of_valid (db : DB) (sid : Nat) (r : RecItem) (k : Nat)
    (hs : sessionExists db sid = true) (hc : 0 ≤ r.score ∧ r.score ≤ 1) :
    insertRecommendation db sid r k
      = .ok { db with recs := db.recs ++ [mkRecRow sid r k] } := by
  unfold insertRecommendation
  rw [if_pos hs, if_pos hc]

theorem insertRecsLoop_ok_shape (sid : Nat) :
    ∀ (recs : List RecItem) (k : Nat) (db db' : DB),
      insertRecsLoop db sid k recs = .ok db' →
      db'.sessions = db.sessions ∧ db'.nextId = db.nextId ∧
      db'.books = db.books ∧ db'.feedback = db.feedback := by
  intro recs
  induction recs with
  | nil =>
    intro k db db' h
    unfold insertRecsLoop at h
    cases h
    exact ⟨rfl, rfl, rfl, rfl⟩
  | cons r rest ih =>
    intro k db db' h
    unfold insertRecsLoop at h
    rcases hins : insertRecommendation db sid r k with m | db1 <;> rw [hins] at h
    · cases h
    · have hsh := insertRecommendation_ok db sid r k db1 hins
      have := ih (k + 1) db1 db' h
      rw [hsh] at this
      exact this

theorem insertRecsLoop_err_shape (sid : Nat) :
    ∀ (recs : List RecItem) (k : Nat) (db db1 : DB) (m : String),
      insertRecsLoop db sid k recs = .error (db1, m) →
      db1.sessions = db.sessions ∧ db1.nextId = db.nextId ∧
      db1.books = db.books ∧ db1.feedback = db.feedback := by
  intro recs
  induction recs with
  | nil =>
    intro k db db1 m h
    unfold insertRecsLoop at h
    cases h
  | cons r rest ih =>
    intro k db db1 m h
    unfold insertRecsLoop at h
    rcases hins : insertRecommendation db sid r k with m' | dbx <;> rw [hins] at h
    · cases h
      exact ⟨rfl, rfl, rfl, rfl⟩
    · have hsh := insertRecommendation_ok db sid r k dbx hins
      have := ih (k + 1) dbx db1 m h
      rw [hsh] at this
      exact this

theorem insertRecsLoop_ok_of_valid (sid : Nat) :
    ∀ (recs : List RecItem) (k : Nat) (db : DB), sessionExists db sid = true →
      (∀ r ∈ recs, 0 ≤ r.score ∧ r.score ≤ 1) →
      insertRecsLoop db sid k recs
        = .ok { db with recs := db.recs ++ recRows sid k recs } := by
  intro recs
  induction recs with
  | nil =>
    intro k db hs _
    unfold insertRecsLoop
    simp [recRows]
  | cons r rest ih =>
    intro k db hs hv
    have hr := hv r (List.mem_cons_self r rest)
    unfold insertRecsLoop
    rw [insertRecommendation_ok_of_valid db sid r k hs hr]
    have hs1 : sessionExists { db with recs := db.recs ++ [mkRecRow sid r k] } sid = true := hs
    show insertRecsLoop { db with recs := db.recs ++ [mkRecRow sid r k] } sid (k + 1) rest = _
    rw [ih (k + 1) _ hs1 (fun x hx => hv x (List.mem_cons_of_mem r hx))]
    simp [recRows]

/-! ### Generator and rank-sequence lemmas -/

theorem genBatch_score_bounds (books : List BookRef) (g : GenOutcome) :
    ∀ r ∈ GeminiService.generateRecommendationsBatch books g,
      0 ≤ r.score ∧ r.score ≤ 1 := by
  intro r hr
  cases g with
  | ok raws =>
    simp only [GeminiService.generateRecommendationsBatch, List.mem_map] at hr
    obtain ⟨raw, _, hraw⟩ := hr
    subst hraw
    refine ⟨le_max_left 0 _, max_le (by norm_num) (min_le_left 1 _)⟩
  | fail =>
    simp only [GeminiService.generateRecommendationsBatch, List.mem_map] at hr
    obtain ⟨b, _, hb⟩ := hr
    subst hb
    exact ⟨by decide, by decide⟩

theorem recRows_session (sid : Nat) :
    ∀ (recs : List RecItem) (k : Nat), ∀ row ∈ recRows sid k recs, row.session = sid := by
  intro recs
  induction recs with
  | nil => intro k row h; cases h
  | cons r rest ih =>
    intro k row h
    rcases List.mem_cons.mp h with h1 | h2
    · rw [h1]; rfl
    · exact ih (k + 1) row h2

theorem recRows_ranks (sid : Nat) :
    ∀ (recs : List RecItem) (k : Nat),
      (recRows sid k recs).map (·.rank) = List.range' k recs.length := by
  intro recs
  induction recs with
  | nil => intro k; rfl
  | cons r rest ih =>
    intro k
    simp only [recRows, List.map_cons, List.length_cons, List.range'_succ]
    rw [ih (k + 1)]
    rfl

/-! ### Phased-variant shape lemmas -/

theorem statusOf_congr_sessions (db db' : DB) (sid : Nat)
    (h : db'.sessions = db.sessions) : statusOf db' sid = statusOf db sid := by
  unfold statusOf findSession
  rw [h]

theorem submitFeedback_state (db : DB) (sid : Nat) (dbid : Option Nat) (t : String) :
    (submitFeedback db sid dbid t).1.sessions = db.sessions ∧
    (submitFeedback db sid dbid t).1.nextId = db.nextId ∧
    (submitFeedback db sid dbid t).1.books = db.books ∧
    (submitFeedback db sid dbid t).1.recs = db.recs := by
  unfold submitFeedback
  split <;> exact ⟨rfl, rfl, rfl, rfl⟩

theorem phasedPost_shape (db : DB) (v : VisionOutcome) :
    ∃ f : SessionRow → SessionRow,
      (∀ r, (f r).id = r.id) ∧
      (∀ r, (f r).status = Status.failed ∨ (f r).status = Status.completed_detection) ∧
      (phasedPost db v).sessions
        = (db.sessions ++ [(⟨db.nextId, Status.processing, none⟩ : SessionRow)]).map
            (fun r : SessionRow => if r.id = db.nextId then f r else r) ∧
      (phasedPost db v).nextId = db.nextId + 1 := by
  cases v with
  | err m =>
    exact ⟨fun r => { r with status := .failed, error_message := some m },
      fun _ => rfl, fun _ => Or.inl rfl, rfl, rfl⟩
  | ok r =>
    rcases hbooks : r.books with _ | bs
    · refine ⟨fun r => { r with status := .failed, error_message := some "No books detected" },
        fun _ => rfl, fun _ => Or.inl rfl, ?_, ?_⟩ <;> simp only [phasedPost, hbooks] <;> rfl
    · cases bs with
      | nil =>
        refine ⟨fun r => { r with status := .failed, error_message := some "No books detected" },
          fun _ => rfl, fun _ => Or.inl rfl, ?_, ?_⟩ <;> simp only [phasedPost, hbooks] <;> rfl
      | cons b rest =>
        rcases hloop : insertBooksLoop
            { db with
              sessions := db.sessions ++ [⟨db.nextId, Status.processing, none⟩]
              nextId := db.nextId + 1 } db.nextId (b :: rest) with ⟨db2, m⟩ | db2
        · have hsh := insertBooksLoop_err_shape db.nextId (b :: rest) _ db2 m hloop
          refine ⟨fun r => { r with status := .failed, error_message := some m },
            fun _ => rfl, fun _ => Or.inl rfl, ?_, ?_⟩ <;>
            simp only [phasedPost, hbooks, hloop]
          · show db2.sessions.map _ = _
            rw [hsh.1]
          · show db2.nextId = _
            rw [hsh.2.1]
        · have hsh := insertBooksLoop_ok_shape db.nextId (b :: rest) _ db2 hloop
          refine ⟨fun r => { r with status := .completed_detection },
            fun _ => rfl, fun _ => Or.inr rfl, ?_, ?_⟩ <;>
            simp only [phasedPost, hbooks, hloop]
          · show db2.sessions.map _ = _
            rw [hsh.1]
          · show db2.nextId = _
            rw [hsh.2.1]

theorem statusOf_phasedPost_other (db : DB) (v : VisionOutcome) (sid : Nat)
    (hne : sid ≠ db.nextId) :
    statusOf (phasedPost db v) sid = statusOf db sid := by
  obtain ⟨f, hid, _, hsess, _⟩ := phasedPost_shape db v
  unfold statusOf findSession
  rw [hsess, find?_update_other _ _ _ f hid hne, List.find?_append]
  have hsingle : List.find? (fun r => r.id == sid)
      [(⟨db.nextId, Status.processing, none⟩ : SessionRow)] = none := by
    have : ((⟨db.nextId, Status.processing, none⟩ : SessionRow).id == sid) = false := by
      simp
      exact fun hc => hne hc.symm
    simp [List.find?, this]
  rw [hsingle]
  cases db.sessions.find? (fun r => r.id == sid) <;> rfl

theorem phasedRecommendations_cases (db : DB) (sid : Nat) (g : GenOutcome) :
    ((phasedRecommendations db sid g).sessions = db.sessions ∧
      (phasedRecommendations db sid g).nextId = db.nextId) ∨
    (booksOf db sid ≠ [] ∧ ∃ db1 : DB, db1.sessions = db.sessions ∧
      db1.nextId = db.nextId ∧
      phasedRecommendations db sid g = setStatus db1 sid .completed) := by
  by_cases hb : (booksOf db sid).isEmpty
  · left
    unfold phasedRecommendations
    rw [if_pos hb]
    exact ⟨rfl, rfl⟩
  · rcases hloop : insertRecsLoop db sid 1
        (GeminiService.generateRecommendationsBatch
          (((booksOf db sid).take 5).map (fun b => ⟨b.title, b.author⟩)) g)
        with ⟨db1, m⟩ | db1
    · left
      have hsh := insertRecsLoop_err_shape sid _ 1 db db1 m hloop
      unfold phasedRecommendations
      rw [if_neg hb]
      simp only [hloop]
      exact ⟨hsh.1, hsh.2.1⟩
    · right
      have hsh := insertRecsLoop_ok_shape sid _ 1 db db1 hloop
      refine ⟨fun hc => hb (by rw [hc]; rfl), db1, hsh.1, hsh.2.1, ?_⟩
      unfold phasedRecommendations
      rw [if_neg hb]
      simp only [hloop]

theorem statusOf_phasedRec_other (db : DB) (sid sid' : Nat) (g : GenOutcome)
    (hne : sid' ≠ sid) :
    statusOf (phasedRecommendations db sid g) sid' = statusOf db sid' := by
  rcases phasedRecommendations_cases db sid g with ⟨hs, _⟩ | ⟨_, db1, hs1, _, heq⟩
  · exact statusOf_congr_sessions db _ sid' hs
  · rw [heq, statusOf_setStatus_other db1 sid sid' _ hne]
    exact statusOf_congr_sessions db db1 sid' hs1

/-! ### The phased status invariant -/

/-- Invariant of every store reachable by phased operations: session ids are
below the id counter, and no session is left in `processing` (each phased
POST resolves its session to `failed` or `completed_detection` before
returning). -/
def PhasedInv (db : DB) : Prop :=
  (∀ r ∈ db.sessions, r.id < db.nextId) ∧
  (∀ r ∈ db.sessions, r.status ≠ Status.processing)

theorem phasedInv_empty : PhasedInv emptyDB :=
  ⟨fun r h => absurd h (List.not_mem_nil r), fun r h => absurd h (List.not_mem_nil r)⟩

theorem phasedInv_post (db : DB) (v : VisionOutcome) (hInv : PhasedInv db) :
    PhasedInv (phasedPost db v) := by
  obtain ⟨f, hid, hst, hsess, hnext⟩ := phasedPost_shape db v
  constructor
  · intro r hr
    rw [hsess] at hr
    rw [hnext]
    obtain ⟨r0, hr0, hr0eq⟩ := List.mem_map.mp hr
    rcases List.mem_append.mp hr0 with hmem | hmem
    · have hlt := hInv.1 r0 hmem
      have hne : r0.id ≠ db.nextId := Nat.ne_of_lt hlt
      rw [← hr0eq, if_neg hne]
      exact Nat.lt_succ_of_lt hlt
    · have heq0 : r0 = ⟨db.nextId, .processing, none⟩ := by simpa using hmem
      subst heq0
      rw [← hr0eq, if_pos rfl, hid]
      exact Nat.lt_succ_self _
  · intro r hr
    rw [hsess] at hr
    obtain ⟨r0, hr0, hr0eq⟩ := List.mem_map.mp hr
    rcases List.mem_append.mp hr0 with hmem | hmem
    · have hlt := hInv.1 r0 hmem
      have hne : r0.id ≠ db.nextId := Nat.ne_of_lt hlt
      rw [← hr0eq, if_neg hne]
      exact hInv.2 r0 hmem
    · have heq0 : r0 = ⟨db.nextId, .processing, none⟩ := by simpa using hmem
      subst heq0
      rw [← hr0eq, if_pos rfl]
      rcases hst (⟨db.nextId, .processing, none⟩ : SessionRow) with h1 | h1 <;>
        rw [h1] <;> simp

theorem phasedInv_rec (db : DB) (sid : Nat) (g : GenOutcome) (hInv : PhasedInv db) :
    PhasedInv (phasedRecommendations db sid g) := by
  rcases phasedRecommendations_cases db sid g with ⟨hs, hn⟩ | ⟨_, db1, hs1, hn1, heq⟩
  · constructor
    · intro r hr; rw [hs] at hr; rw [hn]; exact hInv.1 r hr
    · intro r hr; rw [hs] at hr; exact hInv.2 r hr
  · rw [heq]
    constructor
    · intro r hr
      have hr' : r ∈ db1.sessions.map
          (fun r => if r.id = sid then { r with status := Status.completed } else r) := hr
      obtain ⟨r0, hr0, hr0eq⟩ := List.mem_map.mp hr'
      rw [hs1] at hr0
      have hn2 : (setStatus db1 sid .completed).nextId = db.nextId := hn1
      rw [hn2]
      have hlt := hInv.1 r0 hr0
      rw [← hr0eq]
      by_cases hc : r0.id = sid
      · rw [if_pos hc]; exact hlt
      · rw [if_neg hc]; exact hlt
    · intro r hr
      have hr' : r ∈ db1.sessions.map
          (fun r => if r.id = sid then { r with status := Status.completed } else r) := hr
      obtain ⟨r0, hr0, hr0eq⟩ := List.mem_map.mp hr'
      rw [hs1] at hr0
      rw [← hr0eq]
      by_cases hc : r0.id = sid
      · rw [if_pos hc]; simp
      · rw [if_neg hc]; exact hInv.2 r0 hr0

theorem phasedInv_step (db : DB) (op : PhasedOp) (hInv : PhasedInv db) :
    PhasedInv (applyPhasedOp db op) := by
  cases op with
  | startScan v => exact phasedInv_post db v hInv
  | recommendPhase sid g => exact phasedInv_rec db sid g hInv
  | getStatus sid => exact hInv
  | feedback sid dbid t =>
    obtain ⟨hs, hn, _, _⟩ := submitFeedback_state db sid dbid t
    constructor
    · intro r hr
      have hr2 : r ∈ (submitFeedback db sid dbid t).1.sessions := hr
      rw [hs] at hr2
      show r.id < (submitFeedback db sid dbid t).1.nextId
      rw [hn]
      exact hInv.1 r hr2
    · intro r hr
      have hr2 : r ∈ (submitFeedback db sid dbid t).1.sessions := hr
      rw [hs] at hr2
      exact hInv.2 r hr2

theorem phasedInv_run (ops : List PhasedOp) : PhasedInv (runPhased ops) := by
  unfold runPhased
  suffices h : ∀ db, PhasedInv db → PhasedInv (ops.foldl applyPhasedOp db) from
    h emptyDB phasedInv_empty
  induction ops with
  | nil => intro db h; exact h
  | cons op rest ih => intro db h; exact ih _ (phasedInv_step db op h)

theorem statusOf_ne_processing (db : DB) (sid : Nat) (s : Status) (hInv : PhasedInv db)
    (h : statusOf db sid = some s) : s ≠ Status.processing := by
  unfold statusOf findSession at h
  rcases hfind : db.sessions.find? (fun r => r.id == sid) with _ | row <;> rw [hfind] at h
  · cases h
  · have hmem := List.mem_of_find?_eq_some hfind
    have hnp := hInv.2 row hmem
    simp only [Option.map_some'] at h
    rw [← Option.some_inj.mp h]
    exact hnp

/-! ### Sync pipeline lemmas -/

theorem sessionExists_append_self (db : DB) (st : Status) (e : Option String) (n : Nat) :
    sessionExists
      { db with sessions := db.sessions ++ [⟨db.nextId, st, e⟩], nextId := n }
      db.nextId = true := by
  unfold sessionExists
  simp [List.any_append]

theorem bookRows_session (sid : Nat) :
    ∀ (bs : List VisionBook) (k : Nat), ∀ row ∈ bookRows sid k bs, row.session = sid := by
  intro bs
  induction bs with
  | nil => intro k row h; cases h
  | cons b rest ih =>
    intro k row h
    rcases List.mem_cons.mp h with h1 | h2
    · rw [h1]; rfl
    · exact ih (k + 1) row h2

theorem bookRows_filter (sid : Nat) (bs : List VisionBook) (k : Nat) :
    (bookRows sid k bs).filter (fun b => b.session == sid) = bookRows sid k bs := by
  refine List.filter_eq_self.mpr ?_
  intro a ha
  have := bookRows_session sid bs k a ha
  simp [this]

theorem bookRows_length (sid : Nat) :
    ∀ (bs : List VisionBook) (k : Nat), (bookRows sid k bs).length = bs.length := by
  intro bs
  induction bs with
  | nil => intro k; rfl
  | cons b rest ih =>
    intro k
    simp [bookRows, ih (k + 1)]

theorem bookRows_confidences (sid : Nat) :
    ∀ (bs : List VisionBook) (k : Nat),
      (bookRows sid k bs).map (·.confidence) = bs.map (·.confidence) := by
  intro bs
  induction bs with
  | nil => intro k; rfl
  | cons b rest ih =>
    intro k
    simp only [bookRows, List.map_cons]
    rw [ih (k + 1)]
    rfl

theorem bookRows_author (sid : Nat) :
    ∀ (bs : List VisionBook) (k : Nat) (row : BookRow), row ∈ bookRows sid k bs →
      ∃ b ∈ bs, row.author = jsOrNull b.author := by
  intro bs
  induction bs with
  | nil => intro k row h; cases h
  | cons b rest ih =>
    intro k row h
    rcases List.mem_cons.mp h with h1 | h2
    · exact ⟨b, List.mem_cons_self b rest, by rw [h1]; rfl⟩
    · obtain ⟨b', hb', he⟩ := ih (k + 1) row h2
      exact ⟨b', List.mem_cons_of_mem b hb', he⟩

theorem recRows_filter (sid : Nat) (recs : List RecItem) (k : Nat) :
    (recRows sid k recs).filter (fun r => r.session == sid) = recRows sid k recs := by
  refine List.filter_eq_self.mpr ?_
  intro a ha
  have := recRows_session sid recs k a ha
  simp [this]

/-- Shape of the sync `processImage` run on a nonempty, fully valid detection
result: detected rows are appended unmodified, some recommendation rows are
appended (all for this session), and the session is marked completed. -/
theorem processImage_success_shape (db : DB) (sid : Nat) (bs : List VisionBook)
    (g : GenOutcome)
    (hs : sessionExists db sid = true)
    (hne : bs ≠ [])
    (hv : ∀ b ∈ bs, b.title ≠ none ∧ 0 ≤ b.confidence ∧ b.confidence ≤ 1) :
    ∃ rrows : List RecRow,
      processImage db sid (.ok ⟨some bs⟩) g
        = setStatus
            { db with
              books := db.books ++ bookRows sid db.nextBookId bs
              recs := db.recs ++ rrows
              nextBookId := db.nextBookId + bs.length } sid .completed ∧
      ∀ row ∈ rrows, row.session = sid := by
  cases bs with
  | nil => exact absurd rfl hne
  | cons b rest =>
    have hloop := insertBooksLoop_ok_of_valid sid (b :: rest) db hs hv
    unfold processImage
    simp only [hloop]
    by_cases hre : (GeminiService.generateRecommendationsBatch
        (((b :: rest).take 5).map visionToRef) g).isEmpty
    · refine ⟨[], ?_, fun row hrow => absurd hrow (List.not_mem_nil row)⟩
      simp only [if_pos hre]
      simp
    · have hbounds := genBatch_score_bounds (((b :: rest).take 5).map visionToRef) g
      have hs1 : sessionExists
          { db with
            books := db.books ++ bookRows sid db.nextBookId (b :: rest)
            nextBookId := db.nextBookId + (b :: rest).length } sid = true := hs
      have hlooprec := insertRecsLoop_ok_of_valid sid
        (GeminiService.generateRecommendationsBatch (((b :: rest).take 5).map visionToRef) g)
        1 _ hs1 hbounds
      refine ⟨recRows sid 1 (GeminiService.generateRecommendationsBatch
          (((b :: rest).take 5).map visionToRef) g), ?_,
        recRows_session sid _ 1⟩
      simp only [if_neg hre, hlooprec]

/-! ### Claim C1 -/

/-- C1 counterexample: the phased deployment can move a session from
`failed` to `completed`.  A detection result whose second candidate lacks a
title makes the insert loop throw after the first row is committed; the
catch block marks the session `failed`, but the detected-book row survives,
so a later phase-2 recommendations call finds books, runs, and
unconditionally writes `completed` over the `failed` status. -/
theorem scan_status_failed_then_completed :
    statusOf (runPhased [PhasedOp.startScan (.ok ⟨some
      [⟨some "Dune", none, mkRat 9 10⟩, ⟨none, none, mkRat 1 2⟩]⟩)]) 0
      = some Status.failed ∧
    statusOf (applyPhasedOp
      (runPhased [PhasedOp.startScan (.ok ⟨some
        [⟨some "Dune", none, mkRat 9 10⟩, ⟨none, none, mkRat 1 2⟩]⟩)])
      (PhasedOp.recommendPhase 0 (GenOutcome.ok []))) 0
      = some Status.completed := by
  constructor <;> decide

/-- C1 (amended): across any sequence of phased operations from the empty
store, a session's stored status never returns to `processing` (indeed no
session is ever observed in `processing` between operations), and every
status change is either `completed_detection → completed` or the
repair-like `failed → completed` transition, which the phase-2 call
performs exactly when the failed session retained detected-book rows; a
`failed` session with no detected-book rows keeps its status forever. -/
theorem scan_status_transition_characterization (ops : List PhasedOp) (op : PhasedOp)
    (sid : Nat) (s s' : Status)
    (h : statusOf (runPhased ops) sid = some s)
    (h' : statusOf (applyPhasedOp (runPhased ops) op) sid = some s') :
    s ≠ .processing ∧ s' ≠ .processing ∧
      (s' = s ∨ (s = .completed_detection ∧ s' = .completed) ∨
        (s = .failed ∧ s' = .completed ∧ booksOf (runPhased ops) sid ≠ [])) := by
  have hInv := phasedInv_run ops
  have hInv' := phasedInv_step _ op hInv
  refine ⟨statusOf_ne_processing _ sid s hInv h,
    statusOf_ne_processing _ sid s' hInv' h', ?_⟩
  cases op with
  | getStatus sid0 =>
    left
    have h2 : statusOf (runPhased ops) sid = some s' := h'
    rw [h] at h2
    exact (Option.some_inj.mp h2).symm
  | feedback sid0 dbid t =>
    left
    have h2 : statusOf (applyPhasedOp (runPhased ops) (.feedback sid0 dbid t)) sid
        = statusOf (runPhased ops) sid :=
      statusOf_congr_sessions _ _ sid (submitFeedback_state (runPhased ops) sid0 dbid t).1
    rw [h', h] at h2
    exact Option.some_inj.mp h2
  | startScan v =>
    left
    have hex := sessionExists_of_statusOf (runPhased ops) sid s h
    have hlt : sid < (runPhased ops).nextId := by
      unfold sessionExists at hex
      rw [List.any_eq_true] at hex
      obtain ⟨r, hr, hpr⟩ := hex
      have hid : r.id = sid := by simpa using hpr
      rw [← hid]
      exact hInv.1 r hr
    have hne : sid ≠ (runPhased ops).nextId := Nat.ne_of_lt hlt
    have h2 : statusOf (applyPhasedOp (runPhased ops) (.startScan v)) sid
        = statusOf (runPhased ops) sid :=
      statusOf_phasedPost_other (runPhased ops) v sid hne
    rw [h', h] at h2
    exact Option.some_inj.mp h2
  | recommendPhase sid0 g =>
    by_cases hss : sid = sid0
    · subst hss
      rcases phasedRecommendations_cases (runPhased ops) sid g with
        ⟨hs, _⟩ | ⟨hbne, db1, hs1, _, heq⟩
      · left
        have h2 : statusOf (applyPhasedOp (runPhased ops) (.recommendPhase sid g)) sid
            = statusOf (runPhased ops) sid :=
          statusOf_congr_sessions _ _ sid hs
        rw [h', h] at h2
        exact Option.some_inj.mp h2
      · have h2 : statusOf (setStatus db1 sid .completed) sid = some s' := by
          rw [← heq]
          exact h'
        have hs' : s' = .completed := statusOf_setStatus_eq_some db1 sid _ s' h2
        have hsne := statusOf_ne_processing _ sid s hInv h
        cases s with
        | processing => exact absurd rfl hsne
        | completed_detection => exact Or.inr (Or.inl ⟨rfl, hs'⟩)
        | completed => left; rw [hs']
        | failed => exact Or.inr (Or.inr ⟨rfl, hs', hbne⟩)
    · left
      have h2 : statusOf (applyPhasedOp (runPhased ops) (.recommendPhase sid0 g)) sid
          = statusOf (runPhased ops) sid :=
        statusOf_phasedRec_other (runPhased ops) sid0 sid g hss
      rw [h', h] at h2
      exact Option.some_inj.mp h2

/-- C1 witness: a concrete run — one successful phased upload followed by a
status poll — satisfies the transition characterization's hypotheses. -/
theorem scan_status_transition_characterization_witness :
    statusOf (runPhased [PhasedOp.startScan (.ok ⟨some
        [⟨some "Dune", some "Frank Herbert", mkRat 19 20⟩]⟩)]) 0
      = some Status.completed_detection ∧
    (Status.completed_detection ≠ Status.processing ∧
      Status.completed_detection ≠ Status.processing ∧
      (Status.completed_detection = Status.completed_detection ∨
        (Status.completed_detection = Status.completed_detection ∧
          Status.completed_detection = Status.completed) ∨
        (Status.completed_detection = Status.failed ∧
          Status.completed_detection = Status.completed ∧
          booksOf (runPhased [PhasedOp.startScan (.ok ⟨some
            [⟨some "Dune", some "Frank Herbert", mkRat 19 20⟩]⟩)]) 0 ≠ []))) :=
  ⟨by decide,
    scan_status_transition_characterization
      [PhasedOp.startScan (.ok ⟨some [⟨some "Dune", some "Frank Herbert", mkRat 19 20⟩]⟩)]
      (PhasedOp.getStatus 0) 0 Status.completed_detection Status.completed_detection
      (by decide) (by decide)⟩

/-! ### Claim C2 -/

/-- C2 counterexample: invoking the phase-2 recommendations call twice on the
same session appends a second run of ranks restarting at 1, so the session's
rank values are `[1, 1]` — duplicated, not the dense sequence `1..N`. -/
theorem rank_duplicate_on_reinvocation :
    ranksOf (runPhased [PhasedOp.startScan (.ok ⟨some [⟨some "Dune", none, mkRat 9 10⟩]⟩),
      PhasedOp.recommendPhase 0 (.ok [⟨some "X", some "Y", some (mkRat 4 5), some "r"⟩]),
      PhasedOp.recommendPhase 0 (.ok [⟨some "X", some "Y", some (mkRat 4 5), some "r"⟩])]) 0
      = [1, 1] ∧
    ¬ (ranksOf (runPhased [PhasedOp.startScan (.ok ⟨some [⟨some "Dune", none, mkRat 9 10⟩]⟩),
      PhasedOp.recommendPhase 0 (.ok [⟨some "X", some "Y", some (mkRat 4 5), some "r"⟩]),
      PhasedOp.recommendPhase 0 (.ok [⟨some "X", some "Y", some (mkRat 4 5), some "r"⟩])]) 0).Nodup := by
  constructor <;> decide

/-- C2 (amended): each phase-2 invocation on a session with detected books
appends recommendation rows whose ranks are the dense run `1..n`, where `n`
is however many items the generator returned — the handler caps the books it
sends to the generator at 5 but places no cap on the generator's output and
never clears prior rows.  Hence after a single invocation on a session with
no prior recommendation rows the stored ranks are exactly `1..n`, but `n` is
not bounded by 5 and a repeated invocation appends a second dense run
restarting at rank 1. -/
theorem phase2_ranks_append_dense (db : DB) (sid : Nat) (g : GenOutcome)
    (hs : sessionExists db sid = true) (hb : booksOf db sid ≠ []) :
    ranksOf (phasedRecommendations db sid g) sid
      = ranksOf db sid ++ List.range' 1
          (GeminiService.generateRecommendationsBatch
            (((booksOf db sid).take 5).map (fun b => ⟨b.title, b.author⟩)) g).length ∧
    (recsOf db sid = [] →
      ranksOf (phasedRecommendations db sid g) sid
        = List.range' 1
            (GeminiService.generateRecommendationsBatch
              (((booksOf db sid).take 5).map (fun b => ⟨b.title, b.author⟩)) g).length) := by
  have hbe : ¬ (booksOf db sid).isEmpty = true := fun hc => hb (List.isEmpty_iff.mp hc)
  have hbounds := genBatch_score_bounds
    (((booksOf db sid).take 5).map (fun b => ⟨b.title, b.author⟩)) g
  have hloop := insertRecsLoop_ok_of_valid sid
    (GeminiService.generateRecommendationsBatch
      (((booksOf db sid).take 5).map (fun b => ⟨b.title, b.author⟩)) g) 1 db hs hbounds
  have hmain : ranksOf (phasedRecommendations db sid g) sid
      = ranksOf db sid ++ List.range' 1
          (GeminiService.generateRecommendationsBatch
            (((booksOf db sid).take 5).map (fun b => ⟨b.title, b.author⟩)) g).length := by
    unfold phasedRecommendations
    rw [if_neg hbe]
    simp only [hloop]
    unfold ranksOf recsOf
    show ((db.recs ++ recRows sid 1 _).filter (fun r => r.session == sid)).map (·.rank) = _
    rw [List.filter_append, recRows_filter, List.map_append, recRows_ranks]
  refine ⟨hmain, fun hrec => ?_⟩
  rw [hmain]
  unfold ranksOf
  rw [hrec]
  rfl

/-- C2 witness: a session with one detected book, no prior recommendations,
and a two-item generator response receives exactly the ranks `[1, 2]`. -/
theorem phase2_ranks_append_dense_witness :
    sessionExists (⟨[⟨0, .completed_detection, none⟩],
        [⟨1, 0, "Dune", none, mkRat 19 20⟩], [], [], 1, 2⟩ : DB) 0 = true ∧
    booksOf (⟨[⟨0, .completed_detection, none⟩],
        [⟨1, 0, "Dune", none, mkRat 19 20⟩], [], [], 1, 2⟩ : DB) 0 ≠ [] ∧
    ranksOf (phasedRecommendations (⟨[⟨0, .completed_detection, none⟩],
        [⟨1, 0, "Dune", none, mkRat 19 20⟩], [], [], 1, 2⟩ : DB) 0
        (.ok [⟨some "X", some "Y", some (mkRat 4 5), some "r"⟩,
          ⟨some "Z", some "W", some (mkRat 3 5), some "t"⟩])) 0 = [1, 2] :=
  ⟨by decide, by decide, by
    have h := (phase2_ranks_append_dense
      (⟨[⟨0, .completed_detection, none⟩],
        [⟨1, 0, "Dune", none, mkRat 19 20⟩], [], [], 1, 2⟩ : DB) 0
      (.ok [⟨some "X", some "Y", some (mkRat 4 5), some "r"⟩,
        ⟨some "Z", some "W", some (mkRat 3 5), some "t"⟩])
      (by decide) (by decide)).2 (by decide)
    rw [h]
    decide⟩

/-! ### Claim C3 -/

/-- C3 counterexample: a vision candidate with confidence `1.5` is not stored
as `1.0` — no clamping is applied to detection confidences, the insert
violates the schema CHECK constraint, and the session fails with zero
detected-book rows. -/
theorem confidence_out_of_range_rejected :
    booksOf (scanPost emptyDB (.ok ⟨some [⟨some "Dune", none, mkRat 3 2⟩]⟩) .fail).1 0
      = [] ∧
    statusOf (scanPost emptyDB (.ok ⟨some [⟨some "Dune", none, mkRat 3 2⟩]⟩) .fail).1 0
      = some Status.failed := by
  constructor <;> decide

/-- C3 (amended): recommendation scores are clamped into `[0,1]` by the
part_005 generator (`Math.max(0, Math.min(1, score))`, so `1.5 ↦ 1.0` and
`-0.2 ↦ 0.0`) before persistence; detection confidences are not clamped
anywhere — a confidence outside `[0,1]` makes the detected-books insert
violate the CHECK constraint, so the item is rejected and the whole
detection phase fails the session. -/
theorem score_clamping_and_confidence_check :
    (∀ (books : List BookRef) (g : GenOutcome),
      ∀ r ∈ GeminiService.generateRecommendationsBatch books g,
        0 ≤ r.score ∧ r.score ≤ 1) ∧
    (∀ (raw : RawRec) (q : ℚ), raw.score = some q → 1 ≤ q →
      (GeminiService.toRecItem raw).score = 1) ∧
    (∀ (raw : RawRec) (q : ℚ), raw.score = some q → q ≤ 0 →
      (GeminiService.toRecItem raw).score = 0) ∧
    (∀ (db : DB) (sid : Nat) (b : VisionBook) (rest : List VisionBook) (g : GenOutcome),
      sessionExists db sid = true → booksOf db sid = [] → b.title ≠ none →
      ¬ (0 ≤ b.confidence ∧ b.confidence ≤ 1) →
      statusOf (processImage db sid (.ok ⟨some (b :: rest)⟩) g) sid = some .failed ∧
      booksOf (processImage db sid (.ok ⟨some (b :: rest)⟩) g) sid = []) := by
  refine ⟨genBatch_score_bounds, ?_, ?_, ?_⟩
  · intro raw q hsc h1
    unfold GeminiService.toRecItem
    simp only [hsc, Option.getD_some]
    rw [min_eq_left h1, max_eq_right zero_le_one]
  · intro raw q hsc h0
    unfold GeminiService.toRecItem
    simp only [hsc, Option.getD_some]
    rw [min_eq_right (le_trans h0 zero_le_one), max_eq_left h0]
  · intro db sid b rest g hs hfresh ht hchk
    have hins : insertDetectedBook db sid b
        = .error "new row violates check constraint on confidence_score" := by
      unfold insertDetectedBook
      rcases htt : b.title with _ | t
      · exact absurd htt ht
      · simp only [htt]
        rw [if_pos hs, if_neg hchk]
    have hloop : insertBooksLoop db sid (b :: rest)
        = .error (db, "new row violates check constraint on confidence_score") := by
      unfold insertBooksLoop
      rw [hins]
    constructor
    · unfold processImage
      simp only [hloop]
      exact statusOf_setFailed_self db sid _ hs
    · unfold processImage
      simp only [hloop]
      exact hfresh

/-- C3 witness: the clamp sends the out-of-range raw score `1.5` to `1`. -/
theorem score_clamping_and_confidence_check_witness :
    (⟨none, none, some (mkRat 3 2), none⟩ : RawRec).score = some (mkRat 3 2) ∧
    (1 : ℚ) ≤ mkRat 3 2 ∧
    (GeminiService.toRecItem ⟨none, none, some (mkRat 3 2), none⟩).score = 1 :=
  ⟨rfl, by decide,
    score_clamping_and_confidence_check.2.1 ⟨none, none, some (mkRat 3 2), none⟩
      (mkRat 3 2) rfl (by decide)⟩

/-! ### Claim C4 -/

/-- C4: an upload whose detection returns zero candidates (or a result with
no books list) leaves its fresh session `failed`, with the non-empty
human-readable message `No books detected in image` and zero detected-book
rows. -/
theorem zero_books_session_failed (db : DB) (r : VisionResult) (g : GenOutcome)
    (hb : r.books = none ∨ r.books = some [])
    (hfresh : booksOf db db.nextId = []) :
    statusOf (scanPost db (.ok r) g).1 db.nextId = some .failed ∧
    errorMsgOf (scanPost db (.ok r) g).1 db.nextId = some "No books detected in image" ∧
    "No books detected in image" ≠ "" ∧
    booksOf (scanPost db (.ok r) g).1 db.nextId = [] := by
  have hs := sessionExists_append_self db .processing none (db.nextId + 1)
  have hred : (scanPost db (.ok r) g).1
      = setFailed
          { db with
            sessions := db.sessions ++ [⟨db.nextId, .processing, none⟩]
            nextId := db.nextId + 1 } db.nextId "No books detected in image" := by
    rcases hb with h | h <;>
      · show processImage _ db.nextId (.ok r) g = _
        unfold processImage
        simp only [h]
  rw [hred]
  exact ⟨statusOf_setFailed_self _ _ _ hs, errorMsgOf_setFailed_self _ _ _ hs,
    by decide, hfresh⟩

/-- C4 witness: uploading an image that the vision model resolves to an
empty books list fails the session with the stored message. -/
theorem zero_books_session_failed_witness :
    ((⟨some []⟩ : VisionResult).books = none ∨ (⟨some []⟩ : VisionResult).books = some []) ∧
    booksOf emptyDB emptyDB.nextId = [] ∧
    (statusOf (scanPost emptyDB (.ok ⟨some []⟩) .fail).1 emptyDB.nextId = some .failed ∧
      errorMsgOf (scanPost emptyDB (.ok ⟨some []⟩) .fail).1 emptyDB.nextId
        = some "No books detected in image" ∧
      "No books detected in image" ≠ "" ∧
      booksOf (scanPost emptyDB (.ok ⟨some []⟩) .fail).1 emptyDB.nextId = []) :=
  ⟨by decide, by decide,
    zero_books_session_failed emptyDB ⟨some []⟩ .fail (by decide) (by decide)⟩

/-! ### Claim C5 -/

/-- C5 counterexample: the part_005 `generateRecommendationsBatch` does not
return an empty list when the external call fails — its catch block returns
one placeholder recommendation per input book. -/
theorem batch_fallback_not_empty :
    GeminiService.generateRecommendationsBatch [⟨"Dune", some "Frank Herbert"⟩] .fail
      ≠ [] := by decide

/-- C5 (amended): when the external recommendation call fails, neither
variant raises: the `server/src/services/gemini.service.ts` variant returns
the empty list (so the orchestrator completes the session with zero
recommendations), while the part_005 variant returns one placeholder
recommendation (`Unknown Title`, score 0.5) per input book, so the
orchestrator completes the session with placeholder rows instead; in both
cases the session still reaches `completed`. -/
theorem recommendation_failure_degraded :
    ServerGemini.generateRecommendationsBatch .fail = [] ∧
    (∀ books : List BookRef,
      (GeminiService.generateRecommendationsBatch books .fail).length = books.length ∧
      ∀ r ∈ GeminiService.generateRecommendationsBatch books .fail,
        r.title = "Unknown Title" ∧ r.score = mkRat 1 2) ∧
    (∀ (db : DB) (sid : Nat) (bs : List VisionBook),
      sessionExists db sid = true → bs ≠ [] →
      (∀ b ∈ bs, b.title ≠ none ∧ 0 ≤ b.confidence ∧ b.confidence ≤ 1) →
      statusOf (processImage db sid (.ok ⟨some bs⟩) .fail) sid = some .completed) := by
  refine ⟨rfl, ?_, ?_⟩
  · intro books
    constructor
    · simp [GeminiService.generateRecommendationsBatch]
    · intro r hr
      simp only [GeminiService.generateRecommendationsBatch, List.mem_map] at hr
      obtain ⟨b, _, hb⟩ := hr
      rw [← hb]
      exact ⟨rfl, rfl⟩
  · intro db sid bs hs hne hv
    obtain ⟨rrows, heq, _⟩ := processImage_success_shape db sid bs .fail hs hne hv
    rw [heq]
    exact statusOf_setStatus_self _ sid _ hs

/-- C5 witness: a session with one valid detected candidate completes even
though the recommendation call failed. -/
theorem recommendation_failure_degraded_witness :
    sessionExists (⟨[⟨0, .processing, none⟩], [], [], [], 1, 0⟩ : DB) 0 = true ∧
    ([(⟨some "Dune", none, mkRat 9 10⟩ : VisionBook)] ≠ []) ∧
    statusOf (processImage (⟨[⟨0, .processing, none⟩], [], [], [], 1, 0⟩ : DB) 0
      (.ok ⟨some [⟨some "Dune", none, mkRat 9 10⟩]⟩) .fail) 0 = some .completed :=
  ⟨by decide, by decide,
    recommendation_failure_degraded.2.2 (⟨[⟨0, .processing, none⟩], [], [], [], 1, 0⟩ : DB) 0
      [⟨some "Dune", none, mkRat 9 10⟩] (by decide) (by decide) (by decide)⟩

/-! ### Claim C6 -/

/-- C6 counterexample: a detection result whose first candidate lacks a
title is not silently dropped — the NOT NULL violation fails the whole
session, so even the titled second candidate is never persisted. -/
theorem untitled_candidate_fails_session :
    statusOf (scanPost emptyDB (.ok ⟨some [⟨none, none, mkRat 1 2⟩,
      ⟨some "Brave New World", none, mkRat 1 2⟩]⟩) .fail).1 0 = some Status.failed ∧
    booksOf (scanPost emptyDB (.ok ⟨some [⟨none, none, mkRat 1 2⟩,
      ⟨some "Brave New World", none, mkRat 1 2⟩]⟩) .fail).1 0 = [] := by
  constructor <;> decide

/-- C6 (amended): no code drops a titleless candidate before persistence —
inserting it violates the `title NOT NULL` constraint and the thrown error
fails the session, so no row is stored for it or any later candidate; a
candidate with a title but no author is persisted with a null author. -/
theorem title_required_author_optional :
    (∀ (db : DB) (sid : Nat) (b : VisionBook) (rest : List VisionBook) (g : GenOutcome),
      sessionExists db sid = true → booksOf db sid = [] → b.title = none →
      statusOf (processImage db sid (.ok ⟨some (b :: rest)⟩) g) sid = some .failed ∧
      booksOf (processImage db sid (.ok ⟨some (b :: rest)⟩) g) sid = []) ∧
    (∀ (db : DB) (sid : Nat) (bs : List VisionBook) (g : GenOutcome),
      sessionExists db sid = true → booksOf db sid = [] → bs ≠ [] →
      (∀ b ∈ bs, b.title ≠ none ∧ 0 ≤ b.confidence ∧ b.confidence ≤ 1) →
      (∀ b ∈ bs, b.author = none) →
      ∀ row ∈ booksOf (processImage db sid (.ok ⟨some bs⟩) g) sid,
        row.author = none) := by
  constructor
  · intro db sid b rest g hs hfresh ht
    have hins : insertDetectedBook db sid b
        = .error "null value in column title violates not-null constraint" := by
      unfold insertDetectedBook
      simp only [ht]
    have hloop : insertBooksLoop db sid (b :: rest)
        = .error (db, "null value in column title violates not-null constraint") := by
      unfold insertBooksLoop
      rw [hins]
    constructor
    · unfold processImage
      simp only [hloop]
      exact statusOf_setFailed_self db sid _ hs
    · unfold processImage
      simp only [hloop]
      exact hfresh
  · intro db sid bs g hs hfresh hne hv hauth
    obtain ⟨rrows, heq, _⟩ := processImage_success_shape db sid bs g hs hne hv
    intro row hrow
    rw [heq] at hrow
    have hrow2 : row ∈ (db.books ++ bookRows sid db.nextBookId bs).filter
        (fun b => b.session == sid) := hrow
    have h3 : db.books.filter (fun b => b.session == sid) = [] := hfresh
    rw [List.filter_append, h3, List.nil_append, bookRows_filter] at hrow2
    obtain ⟨b, hbmem, hbrow⟩ := bookRows_author sid bs db.nextBookId row hrow2
    rw [hbrow, hauth b hbmem]
    rfl

/-- C6 witness: a single titleless candidate fails a fresh session with zero
detected-book rows. -/
theorem title_required_author_optional_witness :
    sessionExists (⟨[⟨0, .processing, none⟩], [], [], [], 1, 0⟩ : DB) 0 = true ∧
    booksOf (⟨[⟨0, .processing, none⟩], [], [], [], 1, 0⟩ : DB) 0 = [] ∧
    (statusOf (processImage (⟨[⟨0, .processing, none⟩], [], [], [], 1, 0⟩ : DB) 0
        (.ok ⟨some [⟨none, none, mkRat 1 2⟩]⟩) .fail) 0 = some .failed ∧
      booksOf (processImage (⟨[⟨0, .processing, none⟩], [], [], [], 1, 0⟩ : DB) 0
        (.ok ⟨some [⟨none, none, mkRat 1 2⟩]⟩) .fail) 0 = []) :=
  ⟨by decide, by decide,
    title_required_author_optional.1 (⟨[⟨0, .processing, none⟩], [], [], [], 1, 0⟩ : DB) 0
      ⟨none, none, mkRat 1 2⟩ [] .fail (by decide) (by decide) rfl⟩

/-! ### Claim C8 -/

/-- C8 counterexample: a detection result with two candidates, the second
having confidence 2, persists one row rather than one per candidate — the
CHECK violation aborts the insert loop mid-way and fails the session. -/
theorem row_count_mismatch_on_invalid_candidate :
    (booksOf (scanPost emptyDB (.ok ⟨some [⟨some "Dune", none, mkRat 9 10⟩,
      ⟨some "Ulysses", none, mkRat 2 1⟩]⟩) .fail).1 0).length = 1 ∧
    statusOf (scanPost emptyDB (.ok ⟨some [⟨some "Dune", none, mkRat 9 10⟩,
      ⟨some "Ulysses", none, mkRat 2 1⟩]⟩) .fail).1 0 = some Status.failed := by
  constructor <;> decide

/-- C8 (amended): provided every returned candidate has a title and a
confidence within `[0,1]`, the upload handler persists exactly one
detected-book row per candidate, stores each confidence unmodified, and
completes the session; a candidate outside those constraints instead aborts
the loop and fails the session, leaving only the earlier candidates' rows. -/
theorem valid_candidates_persisted_unmodified (db : DB) (bs : List VisionBook)
    (g : GenOutcome)
    (hfresh : booksOf db db.nextId = [])
    (hne : bs ≠ [])
    (hv : ∀ b ∈ bs, b.title ≠ none ∧ 0 ≤ b.confidence ∧ b.confidence ≤ 1) :
    booksOf (scanPost db (.ok ⟨some bs⟩) g).1 db.nextId
      = bookRows db.nextId db.nextBookId bs ∧
    (booksOf (scanPost db (.ok ⟨some bs⟩) g).1 db.nextId).length = bs.length ∧
    (booksOf (scanPost db (.ok ⟨some bs⟩) g).1 db.nextId).map (·.confidence)
      = bs.map (·.confidence) ∧
    statusOf (scanPost db (.ok ⟨some bs⟩) g).1 db.nextId = some .completed := by
  have hs := sessionExists_append_self db .processing none (db.nextId + 1)
  obtain ⟨rrows, heq, _⟩ := processImage_success_shape
    { db with
      sessions := db.sessions ++ [⟨db.nextId, .processing, none⟩]
      nextId := db.nextId + 1 }
    db.nextId bs g hs hne hv
  have hsp : (scanPost db (.ok ⟨some bs⟩) g).1
      = processImage
          { db with
            sessions := db.sessions ++ [⟨db.nextId, .processing, none⟩]
            nextId := db.nextId + 1 } db.nextId (.ok ⟨some bs⟩) g := rfl
  have hbooks : (db.books ++ bookRows db.nextId db.nextBookId bs).filter
      (fun b => b.session == db.nextId) = bookRows db.nextId db.nextBookId bs := by
    have h3 : db.books.filter (fun b => b.session == db.nextId) = [] := hfresh
    rw [List.filter_append, h3, List.nil_append, bookRows_filter]
  rw [hsp, heq]
  refine ⟨hbooks, ?_, ?_, statusOf_setStatus_self _ _ _ hs⟩
  · show ((db.books ++ bookRows db.nextId db.nextBookId bs).filter
        (fun b => b.session == db.nextId)).length = bs.length
    rw [hbooks, bookRows_length]
  · show ((db.books ++ bookRows db.nextId db.nextBookId bs).filter
        (fun b => b.session == db.nextId)).map (·.confidence) = bs.map (·.confidence)
    rw [hbooks, bookRows_confidences]

/-- C8 witness: one valid candidate (`Dune`, confidence 0.95) leads to one
persisted row with the same confidence and a completed session. -/
theorem valid_candidates_persisted_unmodified_witness :
    booksOf emptyDB emptyDB.nextId = [] ∧
    ([(⟨some "Dune", some "Frank Herbert", mkRat 19 20⟩ : VisionBook)] ≠ []) ∧
    (booksOf (scanPost emptyDB
        (.ok ⟨some [⟨some "Dune", some "Frank Herbert", mkRat 19 20⟩]⟩) .fail).1
        emptyDB.nextId
      = bookRows emptyDB.nextId emptyDB.nextBookId
          [⟨some "Dune", some "Frank Herbert", mkRat 19 20⟩] ∧
    (booksOf (scanPost emptyDB
        (.ok ⟨some [⟨some "Dune", some "Frank Herbert", mkRat 19 20⟩]⟩) .fail).1
        emptyDB.nextId).length
      = ([⟨some "Dune", some "Frank Herbert", mkRat 19 20⟩] : List VisionBook).length ∧
    (booksOf (scanPost emptyDB
        (.ok ⟨some [⟨some "Dune", some "Frank Herbert", mkRat 19 20⟩]⟩) .fail).1
        emptyDB.nextId).map (·.confidence)
      = ([⟨some "Dune", some "Frank Herbert", mkRat 19 20⟩] : List VisionBook).map
          (·.confidence) ∧
    statusOf (scanPost emptyDB
        (.ok ⟨some [⟨some "Dune", some "Frank Herbert", mkRat 19 20⟩]⟩) .fail).1
        emptyDB.nextId = some .completed) :=
  ⟨by decide, by decide,
    valid_candidates_persisted_unmodified emptyDB
      [⟨some "Dune", some "Frank Herbert", mkRat 19 20⟩] .fail
      (by decide) (by decide) (by decide)⟩

/-! ### Claim C7 -/

/-- C7 counterexample: submitting feedback against a nonexistent session id
does not return 404 — the handler never checks the session, the insert's
foreign-key violation lands in the catch block, and the caller sees
HTTP 500 (with no row inserted). -/
theorem feedback_unknown_session_500 :
    (submitFeedback emptyDB 0 none "correction").2 = 500 ∧
    (submitFeedback emptyDB 0 none "correction").2 ≠ 404 ∧
    (submitFeedback emptyDB 0 none "correction").1.feedback = [] := by
  refine ⟨by decide, by decide, by decide⟩

/-- C7 (amended): feedback against a nonexistent session id fails the
session foreign key and returns HTTP 500 (not 404) with no row inserted
and the store unchanged; likewise a dangling `detectedBookId` fails the
`detected_book_id` foreign key with HTTP 500 and no row even when the
session exists.  When the session exists and the request's
`detectedBookId` is absent or references an existing detected book (and
the feedback type is supplied), the handler appends one UserFeedback row
and returns 200.  In every case the session rows — hence every session's
status — are untouched. -/
theorem feedback_insert_behavior (db : DB) (sid : Nat) (dbid : Option Nat) (t : String) :
    (submitFeedback db sid dbid t).1.sessions = db.sessions ∧
    (∀ sid', statusOf (submitFeedback db sid dbid t).1 sid' = statusOf db sid') ∧
    (sessionExists db sid = false → submitFeedback db sid dbid t = (db, 500)) ∧
    (∀ bid, dbid = some bid → bookExists db bid = false →
      submitFeedback db sid dbid t = (db, 500)) ∧
    (sessionExists db sid = true → feedbackFkOk db dbid = true →
      submitFeedback db sid dbid t
        = ({ db with feedback := db.feedback ++ [⟨sid, dbid, t⟩] }, 200)) := by
  have hsess : (submitFeedback db sid dbid t).1.sessions = db.sessions := by
    unfold submitFeedback
    split <;> rfl
  refine ⟨hsess, fun sid' => statusOf_congr_sessions db _ sid' hsess, ?_, ?_, ?_⟩
  · intro h
    unfold submitFeedback
    simp [h]
  · intro bid hbid hbe
    subst hbid
    have hfk : feedbackFkOk db (some bid) = false := hbe
    unfold submitFeedback
    simp [hfk]
  · intro h1 h2
    unfold submitFeedback
    simp [h1, h2]

/-- C7 witness: on a store holding one session and one detected book with
id 7, feedback referencing that book succeeds with 200, appends the row,
and leaves the session rows untouched. -/
theorem feedback_insert_behavior_witness :
    sessionExists (⟨[⟨0, .completed, none⟩],
        [⟨7, 0, "Dune", none, mkRat 19 20⟩], [], [], 1, 8⟩ : DB) 0 = true ∧
    feedbackFkOk (⟨[⟨0, .completed, none⟩],
        [⟨7, 0, "Dune", none, mkRat 19 20⟩], [], [], 1, 8⟩ : DB) (some 7) = true ∧
    ((submitFeedback (⟨[⟨0, .completed, none⟩],
        [⟨7, 0, "Dune", none, mkRat 19 20⟩], [], [], 1, 8⟩ : DB) 0 (some 7)
        "correction").1.sessions
      = (⟨[⟨0, .completed, none⟩],
          [⟨7, 0, "Dune", none, mkRat 19 20⟩], [], [], 1, 8⟩ : DB).sessions ∧
    submitFeedback (⟨[⟨0, .completed, none⟩],
        [⟨7, 0, "Dune", none, mkRat 19 20⟩], [], [], 1, 8⟩ : DB) 0 (some 7) "correction"
      = ({ (⟨[⟨0, .completed, none⟩],
            [⟨7, 0, "Dune", none, mkRat 19 20⟩], [], [], 1, 8⟩ : DB) with
          feedback := (⟨[⟨0, .completed, none⟩],
            [⟨7, 0, "Dune", none, mkRat 19 20⟩], [], [], 1, 8⟩ : DB).feedback
            ++ [⟨0, some 7, "correction"⟩] }, 200)) :=
  ⟨by decide, by decide,
    (feedback_insert_behavior (⟨[⟨0, .completed, none⟩],
        [⟨7, 0, "Dune", none, mkRat 19 20⟩], [], [], 1, 8⟩ : DB) 0 (some 7) "correction").1,
    (feedback_insert_behavior (⟨[⟨0, .completed, none⟩],
        [⟨7, 0, "Dune", none, mkRat 19 20⟩], [], [], 1, 8⟩ : DB) 0 (some 7)
        "correction").2.2.2.2 (by decide) (by decide)⟩

/-! ### Claim C9 -/

/-- C9 counterexample: the phased variant's full session getter never
returns the stored error message — for a session failed with message
`boom`, the response's error field is absent (`none`), not `boom`. -/
theorem phased_getter_omits_error :
    statusOf (phasedPost emptyDB (.err "boom")) 0 = some Status.failed ∧
    errorMsgOf (phasedPost emptyDB (.err "boom")) 0 = some "boom" ∧
    (phasedGetSession (phasedPost emptyDB (.err "boom")) 0).map (·.error) = some none := by
  refine ⟨by decide, by decide, by decide⟩

/-- C9 (amended): the sync/async status getter returns the stored error
message verbatim for a `failed` session and a bare status-only response for
a `processing` session (its response constructors carry no book or
recommendation data in those branches); but the phased variant's full
getter instead returns the raw status with the session's detected books and
recommendations for every status and never includes the error message. -/
theorem status_getter_responses (db : DB) (sid : Nat) (row : SessionRow)
    (h : findSession db sid = some row) :
    (row.status = .failed → getScanResults db sid = .failedResp row.error_message) ∧
    (row.status = .processing → getScanResults db sid = .stillProcessing) ∧
    (∀ v, phasedGetSession db sid = some v →
      v.error = none ∧ v.status = row.status ∧
      v.detectedBooks = booksOf db sid ∧ v.recommendations = recsOf db sid) := by
  refine ⟨?_, ?_, ?_⟩
  · intro hst
    unfold getScanResults
    simp only [h, hst]
  · intro hst
    unfold getScanResults
    simp only [h, hst]
  · intro v hv
    unfold phasedGetSession at hv
    rw [h] at hv
    simp only [Option.map_some'] at hv
    rw [← Option.some_inj.mp hv]
    exact ⟨rfl, rfl, rfl, rfl⟩

/-- C9 witness: a concrete failed session — the sync getter returns its
stored message, while the phased getter's view has no error. -/
theorem status_getter_responses_witness :
    findSession (⟨[⟨0, .failed, some "boom"⟩], [], [], [], 1, 0⟩ : DB) 0
      = some ⟨0, .failed, some "boom"⟩ ∧
    ((⟨0, .failed, some "boom"⟩ : SessionRow).status = .failed →
      getScanResults (⟨[⟨0, .failed, some "boom"⟩], [], [], [], 1, 0⟩ : DB) 0
        = .failedResp (⟨0, .failed, some "boom"⟩ : SessionRow).error_message) :=
  ⟨by decide,
    (status_getter_responses (⟨[⟨0, .failed, some "boom"⟩], [], [], [], 1, 0⟩ : DB) 0
      ⟨0, .failed, some "boom"⟩ (by decide)).1⟩

/-! ### Claim C10 -/

/-- C10: for every existing session whose stored status is neither
`processing` nor `failed` — including the intermediate
`completed_detection` — the sync/async status getter answers with the
`completed` response carrying the session's detected books sorted by
descending confidence and its recommendations sorted by ascending rank;
the intermediate state is never reported as distinct from `completed`. -/
theorem terminal_get_reports_completed_sorted (db : DB) (sid : Nat) (row : SessionRow)
    (h : findSession db sid = some row) (h1 : row.status ≠ .processing)
    (h2 : row.status ≠ .failed) :
    getScanResults db sid
      = .completed (List.insertionSort byConfDesc (booksOf db sid))
          (List.insertionSort byRankAsc (recsOf db sid)) ∧
    List.Sorted byConfDesc (List.insertionSort byConfDesc (booksOf db sid)) ∧
    List.Sorted byRankAsc (List.insertionSort byRankAsc (recsOf db sid)) ∧
    List.Perm (List.insertionSort byConfDesc (booksOf db sid)) (booksOf db sid) ∧
    List.Perm (List.insertionSort byRankAsc (recsOf db sid)) (recsOf db sid) := by
  refine ⟨?_, List.sorted_insertionSort byConfDesc _, List.sorted_insertionSort byRankAsc _,
    List.perm_insertionSort byConfDesc _, List.perm_insertionSort byRankAsc _⟩
  unfold getScanResults
  simp only [h]

/-- C10 witness: a `completed_detection` session with unsorted rows is
reported as `completed` with books in descending-confidence order and
recommendations in ascending-rank order. -/
theorem terminal_get_reports_completed_sorted_witness :
    findSession (⟨[⟨0, .completed_detection, none⟩],
        [⟨1, 0, "A", none, mkRat 1 2⟩, ⟨2, 0, "B", none, mkRat 3 4⟩],
        [⟨0, "X", "Y", mkRat 4 5, "r", 2⟩, ⟨0, "Z", "W", mkRat 3 5, "s", 1⟩], [], 1, 3⟩ : DB) 0
      = some ⟨0, .completed_detection, none⟩ ∧
    getScanResults (⟨[⟨0, .completed_detection, none⟩],
        [⟨1, 0, "A", none, mkRat 1 2⟩, ⟨2, 0, "B", none, mkRat 3 4⟩],
        [⟨0, "X", "Y", mkRat 4 5, "r", 2⟩, ⟨0, "Z", "W", mkRat 3 5, "s", 1⟩], [], 1, 3⟩ : DB) 0
      = .completed
          (List.insertionSort byConfDesc (booksOf (⟨[⟨0, .completed_detection, none⟩],
            [⟨1, 0, "A", none, mkRat 1 2⟩, ⟨2, 0, "B", none, mkRat 3 4⟩],
            [⟨0, "X", "Y", mkRat 4 5, "r", 2⟩, ⟨0, "Z", "W", mkRat 3 5, "s", 1⟩], [], 1, 3⟩ : DB) 0))
          (List.insertionSort byRankAsc (recsOf (⟨[⟨0, .completed_detection, none⟩],
            [⟨1, 0, "A", none, mkRat 1 2⟩, ⟨2, 0, "B", none, mkRat 3 4⟩],
            [⟨0, "X", "Y", mkRat 4 5, "r", 2⟩, ⟨0, "Z", "W", mkRat 3 5, "s", 1⟩], [], 1, 3⟩ : DB) 0)) :=
  ⟨by decide,
    (terminal_get_reports_completed_sorted (⟨[⟨0, .completed_detection, none⟩],
        [⟨1, 0, "A", none, mkRat 1 2⟩, ⟨2, 0, "B", none, mkRat 3 4⟩],
        [⟨0, "X", "Y", mkRat 4 5, "r", 2⟩, ⟨0, "Z", "W", mkRat 3 5, "s", 1⟩], [], 1, 3⟩ : DB) 0
      ⟨0, .completed_detection, none⟩ (by decide) (by decide) (by decide)).1⟩
